import Mathlib

/-!
Verification development for the breakout-style arcade game in `engine.py`.

The simulation core is shallowly embedded: `pygame.Rect` becomes a record of
four integers (pygame stores integer coordinates and truncates any float
assigned to a coordinate toward zero), `pygame.Vector2` speeds become pairs of
rationals (exact arithmetic in place of IEEE doubles; every constant that the
claims exercise — `0.03`, `0.75`, `1.02`, `0.005`, … — evaluates identically in
both), and each method of `Level`, `LevelMaker`, `Game` becomes a pure function
on an explicit state record.
-/

namespace Breakout

/-!
Exact rational arithmetic, written out over `mkRat` so that every operation
the embedding performs is computable by plain reduction.  Each operation is
proved equal to the corresponding Mathlib operation on `ℚ` (`qAdd_eq`,
`qMul_eq`, …), so theorems may be read in ordinary field notation.
-/

/-- The integer `n` as a rational. -/
def qOfInt (n : ℤ) : ℚ := mkRat n 1

/-- Rational addition. -/
def qAdd (a b : ℚ) : ℚ := mkRat (a.num * b.den + b.num * a.den) (a.den * b.den)

/-- Rational negation. -/
def qNeg (a : ℚ) : ℚ := mkRat (-a.num) a.den

/-- Rational subtraction. -/
def qSub (a b : ℚ) : ℚ := qAdd a (qNeg b)

/-- Rational multiplication. -/
def qMul (a b : ℚ) : ℚ := mkRat (a.num * b.num) (a.den * b.den)

/-- Rational absolute value. -/
def qAbs (a : ℚ) : ℚ := if a.num < 0 then qNeg a else a

/-- Division of a rational by an integer (Python true division; division by
zero yields 0, a case no claim exercises). -/
def qDivInt (a : ℚ) (n : ℤ) : ℚ :=
  if n < 0 then mkRat (-a.num) (a.den * (-n).toNat) else mkRat a.num (a.den * n.toNat)

/-- Truncation toward zero, the conversion applied when a Python float is
assigned to a `pygame.Rect` coordinate. -/
def ratTrunc (q : ℚ) : ℤ := Int.tdiv q.num q.den

/-- Floor of a rational (denominators are positive, so flooring the numerator
by the denominator is exact). -/
def ratFloor (q : ℚ) : ℤ := Int.fdiv q.num q.den

/-- Python's `round`: round half to even (banker's rounding), phrased over the
numerator and denominator so it evaluates by integer arithmetic: with
`f = ⌊q⌋` and `r2 = 2·den·(q − f)`, compare `r2` with `den`. -/
def bankersRound (q : ℚ) : ℤ :=
  let f := ratFloor q
  let r2 := 2 * (q.num - f * q.den)
  if r2 < q.den then f
  else if r2 > q.den then f + 1
  else if f % 2 = 0 then f else f + 1

/-- `pygame.Rect`: position and size, integer coordinates. -/
structure Rect where
  x : ℤ
  y : ℤ
  w : ℤ
  h : ℤ
deriving DecidableEq

namespace Rect

def left (r : Rect) : ℤ := r.x
def right (r : Rect) : ℤ := r.x + r.w
def top (r : Rect) : ℤ := r.y
def bottom (r : Rect) : ℤ := r.y + r.h

/-- `rect.centerx`: pygame computes `x + (w >> 1)` (arithmetic shift). -/
def centerx (r : Rect) : ℤ := r.x + Int.fdiv r.w 2

/-- Assigning `rect.right = v` moves the rectangle: `x = v - w`. -/
def setRight (r : Rect) (v : ℤ) : Rect := { r with x := v - r.w }

/-- Assigning `rect.left = v`. -/
def setLeft (r : Rect) (v : ℤ) : Rect := { r with x := v }

/-- Assigning `rect.top = v`. -/
def setTop (r : Rect) (v : ℤ) : Rect := { r with y := v }

/-- Assigning `rect.bottom = v` moves the rectangle: `y = v - h`. -/
def setBottom (r : Rect) (v : ℤ) : Rect := { r with y := v - r.h }

/-- Assigning `rect.centerx = v`: pygame sets `x = v - (w >> 1)`. -/
def setCenterx (r : Rect) (v : ℤ) : Rect := { r with x := v - Int.fdiv r.w 2 }

end Rect

/-- `pygame.sprite.collide_rect` / `Rect.colliderect`: strict overlap on both
axes (all the game's entities have positive width and height). -/
def Collides (a b : Rect) : Prop :=
  a.x < b.x + b.w ∧ a.x + a.w > b.x ∧ a.y < b.y + b.h ∧ a.y + a.h > b.y

instance (a b : Rect) : Decidable (Collides a b) := by
  unfold Collides; infer_instance

/-- `pygame.Vector2`, used only for speeds. -/
structure Vec2 where
  x : ℚ
  y : ℚ
deriving DecidableEq

/-- A destroyable block.  `bid` models Python object identity (each block is a
distinct object; `list.remove` compares by identity). -/
structure Block where
  bid : ℕ
  rect : Rect
  is_destroyed : Bool
deriving DecidableEq

structure Ball where
  rect : Rect
  speed : Vec2
deriving DecidableEq

structure Platform where
  rect : Rect
  speed : Vec2
deriving DecidableEq

/-- `Level.GameState`. -/
structure GameState where
  ball_released_speed : Vec2
  score : ℤ
  lifes : ℤ
  is_game_over : Bool
  is_ball_released : Bool
  is_player_won : Bool
deriving DecidableEq

/-- The `Level` object: blocks, platform, ball, boundary rect, game state. -/
structure Level where
  blocks : List Block
  platform : Platform
  ball : Ball
  edges : Rect
  state : GameState
deriving DecidableEq

/-- `ball.rect.x += ball.speed.x` (float sum truncated into the int coord). -/
def Ball.moveX (b : Ball) : Ball :=
  { b with rect := { b.rect with x := ratTrunc (qAdd (qOfInt b.rect.x) b.speed.x) } }

/-- `ball.rect.y += ball.speed.y`. -/
def Ball.moveY (b : Ball) : Ball :=
  { b with rect := { b.rect with y := ratTrunc (qAdd (qOfInt b.rect.y) b.speed.y) } }

/-- `Platform.move`: `rect.move_ip(speed.x, 0)` (the offset argument itself is
truncated by pygame before being added). -/
def Platform.move (p : Platform) : Platform :=
  { p with rect := { p.rect with x := p.rect.x + ratTrunc p.speed.x } }

/-- `Level.adjust_on_x_collision`: if the mover's right edge lies strictly
inside the obstacle's horizontal span, snap the right edge to the obstacle's
left edge; otherwise snap the left edge to the obstacle's right edge.  Negate
the X speed. -/
def adjust_on_x_collision (b : Ball) (o : Rect) : Ball :=
  let r :=
    if b.rect.right > o.left ∧ b.rect.right < o.right then b.rect.setRight o.left
    else b.rect.setLeft o.right
  { rect := r, speed := { b.speed with x := qNeg b.speed.x } }

/-- `Level.adjust_on_y_collision`: roll back the Y displacement
(`rect.y -= speed.y`) and negate the Y speed. -/
def adjust_on_y_collision (b : Ball) : Ball :=
  { rect := { b.rect with y := ratTrunc (qSub (qOfInt b.rect.y) b.speed.y) },
    speed := { b.speed with y := qNeg b.speed.y } }

/-- `Level.reset_ball`: sit the ball flush on top of the platform, centered,
with zero speed, and clear `is_ball_released`. -/
def Level.reset_ball (s : Level) : Level :=
  { s with
    ball := { rect := (s.ball.rect.setBottom s.platform.rect.top).setCenterx
                        s.platform.rect.centerx,
              speed := ⟨0, 0⟩ },
    state := { s.state with is_ball_released := false } }

/-- `Level.release_ball`: a no-op once released. -/
def Level.release_ball (s : Level) : Level :=
  if s.state.is_ball_released then s
  else { s with
         ball := { s.ball with speed := s.state.ball_released_speed },
         state := { s.state with is_ball_released := true } }

/-- Per-frame key sample: CTRL (release), A (left), D (right). -/
structure Input where
  ctrl : Bool
  a : Bool
  d : Bool
deriving DecidableEq

/-- The inner `update()` closure of `process_key_presses`: move the platform
and, while the ball is unreleased, slave it to the platform. -/
def keyMoveUpdate (s : Level) : Level :=
  let p := s.platform.move
  let b :=
    if s.state.is_ball_released then s.ball
    else { s.ball with
           rect := (s.ball.rect.setBottom p.rect.top).setCenterx p.rect.centerx }
  { s with platform := p, ball := b }

/-- `Level.process_key_presses`: CTRL releases the ball; A forces the platform
speed negative and moves; D forces it positive and moves. -/
def Level.process_key_presses (i : Input) (s : Level) : Level :=
  let s1 := if i.ctrl then s.release_ball else s
  let s2 :=
    if i.a then
      keyMoveUpdate
        { s1 with platform :=
            { s1.platform with
              speed := { s1.platform.speed with x := qNeg (qAbs s1.platform.speed.x) } } }
    else s1
  if i.d then
    keyMoveUpdate
      { s2 with platform :=
          { s2.platform with
            speed := { s2.platform.speed with x := qAbs s2.platform.speed.x } } }
  else s2

/-- The block loop of the X pass: no `break` — every block colliding with the
ball's successively adjusted position is resolved and flagged destroyed. -/
def xBlocksLoop (ball : Ball) : List Block → Ball × List Block
  | [] => (ball, [])
  | b :: bs =>
    if Collides ball.rect b.rect then
      let r := xBlocksLoop (adjust_on_x_collision ball b.rect) bs
      (r.1, { b with is_destroyed := true } :: r.2)
    else
      let r := xBlocksLoop ball bs
      (r.1, b :: r.2)

/-- The block loop of the Y pass (same shape, Y resolution). -/
def yBlocksLoop (ball : Ball) : List Block → Ball × List Block
  | [] => (ball, [])
  | b :: bs =>
    if Collides ball.rect b.rect then
      let r := yBlocksLoop (adjust_on_y_collision ball) bs
      (r.1, { b with is_destroyed := true } :: r.2)
    else
      let r := yBlocksLoop ball bs
      (r.1, b :: r.2)

/-- X-axis pass of `Level.process_collisions`: move, then the `if/elif/else`
chain — platform, right edge, left edge, else the block loop. -/
def xPass (s : Level) : Level :=
  let ball := s.ball.moveX
  if Collides ball.rect s.platform.rect then
    { s with ball := adjust_on_x_collision ball s.platform.rect }
  else if ball.rect.right > s.edges.right then
    { s with ball := { rect := ball.rect.setRight s.edges.right,
                       speed := { ball.speed with x := qNeg ball.speed.x } } }
  else if ball.rect.left < s.edges.left then
    { s with ball := { rect := ball.rect.setLeft s.edges.left,
                       speed := { ball.speed with x := qNeg ball.speed.x } } }
  else
    let r := xBlocksLoop ball s.blocks
    { s with ball := r.1, blocks := r.2 }

/-- The life-loss condition of the Y pass, evaluated on the state the Y pass
receives: the moved ball misses the platform and its bottom edge is past the
boundary's bottom edge. -/
def lifeLossNow (s : Level) : Prop :=
  ¬ Collides s.ball.moveY.rect s.platform.rect ∧
    s.ball.moveY.rect.bottom > s.edges.bottom

instance (s : Level) : Decidable (lifeLossNow s) := by
  unfold lifeLossNow; infer_instance

/-- Y-axis pass of `Level.process_collisions`: move, then platform bounce,
bottom exit (life loss: `reset_ball` and `lifes -= 1`), top clamp, else the
block loop. -/
def yPass (s : Level) : Level :=
  let ball := s.ball.moveY
  if Collides ball.rect s.platform.rect then
    { s with ball := adjust_on_y_collision ball }
  else if ball.rect.bottom > s.edges.bottom then
    let s1 := Level.reset_ball { s with ball := ball }
    { s1 with state := { s1.state with lifes := s1.state.lifes - 1 } }
  else if ball.rect.top < s.edges.top then
    { s with ball := { rect := ball.rect.setTop s.edges.top,
                       speed := { ball.speed with y := qNeg ball.speed.y } } }
  else
    let r := yBlocksLoop ball s.blocks
    { s with ball := r.1, blocks := r.2 }

/-- The source's squeeze guard: `is_squeezing_on_y and is_squeezing_on_x`,
where each side is the disjunction written in `process_collisions`. -/
def squeezeGuard (s : Level) : Prop :=
  (s.ball.rect.bottom < s.platform.rect.top ∨ s.ball.rect.top < s.platform.rect.bottom) ∧
    (s.ball.rect.right > s.edges.right ∨ s.ball.rect.left < s.edges.left)

instance (s : Level) : Decidable (squeezeGuard s) := by
  unfold squeezeGuard; infer_instance

/-- The squeeze correction: when the guard holds, `ball.rect.top` is assigned
`platform.rect.bottom`. -/
def squeezeCorrect (s : Level) : Level :=
  if squeezeGuard s then
    { s with ball := { s.ball with rect := s.ball.rect.setTop s.platform.rect.bottom } }
  else s

/-- Final platform clamp of `process_collisions`. -/
def platformClamp (s : Level) : Level :=
  if s.platform.rect.right > s.edges.right then
    { s with platform := { rect := s.platform.rect.setRight s.edges.right,
                           speed := { s.platform.speed with x := qNeg s.platform.speed.x } } }
  else if s.platform.rect.left < s.edges.left then
    { s with platform := { rect := s.platform.rect.setLeft s.edges.left,
                           speed := { s.platform.speed with x := qNeg s.platform.speed.x } } }
  else s

/-- `Level.process_collisions`: X pass, Y pass, squeeze correction, platform
clamp, in that order. -/
def Level.process_collisions (s : Level) : Level :=
  platformClamp (squeezeCorrect (yPass (xPass s)))

/-- `ball.speed *= 1.02`. -/
def speedUp (v : Vec2) : Vec2 := ⟨qMul v.x (mkRat 51 50), qMul v.y (mkRat 51 50)⟩

/-- The cleanup loop of `Level.update`: a Python `for` over a list that is
mutated by `remove` mid-iteration.  Blocks are distinct objects, so `remove`
deletes exactly the element at the iterator's current position; the iterator's
index still advances, so the element immediately after a removed one is kept
WITHOUT being examined (that is the `b2 ::` in the removal branch). -/
def cleanupLoop (blocks : List Block) (score : ℤ) (sp : Vec2) :
    List Block × ℤ × Vec2 :=
  match blocks with
  | [] => ([], score, sp)
  | b :: bs =>
    if b.is_destroyed then
      match bs with
      | [] => ([], score + 100, speedUp sp)
      | b2 :: bs2 =>
        let r := cleanupLoop bs2 (score + 100) (speedUp sp)
        (b2 :: r.1, r.2)
    else
      let r := cleanupLoop bs score sp
      (b :: r.1, r.2)

/-- `Level.update`: key presses, collision passes, cleanup and scoring,
termination flags. -/
def Level.update (i : Input) (s : Level) : Level :=
  let s2 := Level.process_collisions (Level.process_key_presses i s)
  let c := cleanupLoop s2.blocks s2.state.score s2.ball.speed
  let s3 := { s2 with blocks := c.1,
                      ball := { s2.ball with speed := c.2.2 },
                      state := { s2.state with score := c.2.1 } }
  if s3.state.lifes < 1 then { s3 with state := { s3.state with is_game_over := true } }
  else if s3.blocks.length = 0 then
    { s3 with state := { s3.state with is_player_won := true } }
  else s3

/-- Iterated ticks. -/
def iterUpdate (inps : List Input) (s : Level) : Level :=
  inps.foldl (fun t i => Level.update i t) s

/-- The mid-tick state after the key stage and both collision passes — the
point at which the squeeze correction inspects the ball. -/
def afterPasses (i : Input) (s : Level) : Level :=
  yPass (xPass (Level.process_key_presses i s))

/-- The mid-tick state after the whole `process_collisions` stage. -/
def afterCollisions (i : Input) (s : Level) : Level :=
  Level.process_collisions (Level.process_key_presses i s)

/-! ## Level Factory (`LevelMaker.get_level`, with the derived values computed
in `Game.__init__`) -/

/-- The `Edges` dataclass: width and height of the playing field. -/
structure Edges where
  width : ℤ
  height : ℤ
deriving DecidableEq

/-- `Game.__init__`: `horizontal_margin = round(width * 0.03)`. -/
def horizontalMargin (e : Edges) : ℤ := bankersRound (qMul (qOfInt e.width) (mkRat 3 100))

/-- `Game.__init__`: per-block width derived from the column count
(`width - margin*2 - margin*columns` is integer arithmetic in the source; the
final division by the column count is true division, then `round`). -/
def blockWidth (e : Edges) (numOfColumns : ℤ) : ℤ :=
  bankersRound
    (qDivInt (qOfInt (e.width - horizontalMargin e * 2 - horizontalMargin e * numOfColumns))
      numOfColumns)

/-- `Game.__init__`: `vertical_margin = round(height * 0.06)`. -/
def verticalMargin (e : Edges) : ℤ := bankersRound (qMul (qOfInt e.height) (mkRat 6 100))

/-- One row of the block grid: the `while x + block_w < width` loop, placing a
block and advancing `x` by `block_w + margin`.  The loop terminates whenever it
advances `x`, which the fuel argument (instantiated ample in `get_level`)
makes structural. -/
def placeRowRects (bw hm wid y : ℤ) : ℤ → ℕ → List Rect
  | _, 0 => []
  | x, fuel + 1 =>
    if x + bw < wid then ⟨x, y, bw, 20⟩ :: placeRowRects bw hm wid y (x + bw + hm) fuel
    else []

/-- The row loop: each row restarts at `x = margin` and advances `y` by the
vertical margin. -/
def placeRows (bw hm vm wid : ℤ) (y0 : ℤ) (rows : ℕ) (fuel : ℕ) : List Rect :=
  match rows with
  | 0 => []
  | r + 1 => placeRowRects bw hm wid y0 hm fuel ++ placeRows bw hm vm wid (y0 + vm) r fuel

/-- `Level.__init__` followed by the `reset_ball()` it performs: the launch
speed is recorded before the reset zeroes the ball's speed. -/
def mkLevel (lifes : ℤ) (blocks : List Block) (platform : Platform) (ball : Ball)
    (e : Edges) (topStart : ℤ) : Level :=
  Level.reset_ball
    { blocks := blocks, platform := platform, ball := ball,
      edges := ⟨0, topStart, e.width, e.height⟩,
      state := { ball_released_speed := ball.speed, score := 0, lifes := lifes,
                 is_game_over := false, is_ball_released := false,
                 is_player_won := false } }

/-- `LevelMaker.get_level` with the image sizes built in `Game.__init__`
(platform 65×20, ball 15×15, block `blockWidth`×20): platform at
`(width/2, height*0.75)` with speed `(5,0)`, ball launch speed
`round(height*0.005)` on each axis (opposite signs), the block grid, and a
hard-coded 4 lifes. -/
def get_level (e : Edges) (numOfColumns : ℤ) (rows : ℕ) : Level :=
  let hm := horizontalMargin e
  let bw := blockWidth e numOfColumns
  let vm := verticalMargin e
  let platform : Platform :=
    { rect := ⟨ratTrunc (qDivInt (qOfInt e.width) 2),
               ratTrunc (qMul (qOfInt e.height) (mkRat 3 4)), 65, 20⟩,
      speed := ⟨qOfInt 5, qOfInt 0⟩ }
  let launch : ℤ := bankersRound (qMul (qOfInt e.height) (mkRat 5 1000))
  let ball : Ball := { rect := ⟨0, 0, 15, 15⟩, speed := ⟨qOfInt launch, qOfInt (-launch)⟩ }
  let topMargin : ℤ := 15 * 3
  let y0 : ℤ := bankersRound (qAdd (qMul (qOfInt 15) (mkRat 11 5)) (qOfInt topMargin))
  let rects := placeRows bw hm vm e.width y0 rows (e.width.toNat + 1)
  let blocks := rects.enum.map fun p => (⟨p.1, p.2, false⟩ : Block)
  mkLevel 4 blocks platform ball e topMargin

/-! ## The driver loop of `Game.run` -/

/-- The pygame events the loop body inspects. -/
inductive GEvent where
  | quitEv
  | spaceKey
  | qKey
  | deleteKey
  | otherEv
deriving DecidableEq

/-- One frame's worth of driver input: the polled event queue and the key
sample consumed by `process_key_presses`. -/
structure Frame where
  events : List GEvent
  keys : Input
deriving DecidableEq

/-- The loop's mutable locals. -/
structure LoopState where
  level : Level
  is_paused : Bool
  is_menu_showing : Bool
  running : Bool
deriving DecidableEq

/-- Event handling at the top of the loop body: SPACE toggles pause, Q/QUIT
stop the loop, DELETE replaces the level with a fresh factory level. -/
def handleEvent (fresh : Level) (st : LoopState) (ev : GEvent) : LoopState :=
  match ev with
  | .quitEv => { st with running := false }
  | .spaceKey => { st with is_paused := !st.is_paused, is_menu_showing := false }
  | .qKey => { st with running := false }
  | .deleteKey => { st with level := fresh, is_paused := false, is_menu_showing := true }
  | .otherEv => st

/-- One iteration of the `while running` body: process events, then call
`level.update()` only when the level is neither over nor won nor paused. -/
def gameFrame (fresh : Level) (st : LoopState) (f : Frame) : LoopState :=
  let st1 := f.events.foldl (handleEvent fresh) st
  if st1.level.state.is_game_over then st1
  else if st1.level.state.is_player_won then st1
  else if st1.is_paused then st1
  else { st1 with level := Level.update f.keys st1.level }

/-- A run of the game loop over a list of frames. -/
def runFrames (fresh : Level) (st : LoopState) (fs : List Frame) : LoopState :=
  fs.foldl (gameFrame fresh) st

/-! ## Concrete states used by witnesses and counterexamples -/

/-- The no-keys input sample. -/
def inp0 : Input := ⟨false, false, false⟩

/-- A released ball about to be squeezed between the platform (parked at the
left wall) and the left boundary: the X pass snaps the ball's right edge to
the platform's left edge, pushing it outside the boundary. -/
def s1ex : Level :=
  { blocks := [⟨0, ⟨600, 100, 45, 20⟩, false⟩],
    platform := { rect := ⟨0, 450, 65, 20⟩, speed := ⟨qOfInt 0, qOfInt 0⟩ },
    ball := { rect := ⟨30, 448, 15, 15⟩, speed := ⟨qOfInt 2, qOfInt 3⟩ },
    edges := ⟨0, 0, 700, 500⟩,
    state := { ball_released_speed := ⟨qOfInt 2, qOfInt (-2)⟩, score := 0, lifes := 4,
               is_game_over := false, is_ball_released := true, is_player_won := false } }

/-- A ball that strikes the first block on the X pass and the second block on
the Y pass of the same tick; the two blocks are adjacent in the list. -/
def s2ex : Level :=
  { blocks := [⟨0, ⟨109, 300, 30, 10⟩, false⟩, ⟨1, ⟨90, 311, 30, 10⟩, false⟩],
    platform := { rect := ⟨500, 450, 65, 20⟩, speed := ⟨qOfInt 0, qOfInt 0⟩ },
    ball := { rect := ⟨95, 300, 10, 10⟩, speed := ⟨qOfInt 5, qOfInt 5⟩ },
    edges := ⟨0, 0, 700, 500⟩,
    state := { ball_released_speed := ⟨qOfInt 2, qOfInt (-2)⟩, score := 0, lifes := 4,
               is_game_over := false, is_ball_released := true, is_player_won := false } }

/-- A ball whose X pass resolves against one block, and whose snapped-back
position then overlaps a second block later in the same loop. -/
def s3ex : Level :=
  { blocks := [⟨0, ⟨60, 300, 37, 10⟩, false⟩, ⟨1, ⟨97, 300, 2, 10⟩, false⟩],
    platform := { rect := ⟨500, 450, 65, 20⟩, speed := ⟨qOfInt 0, qOfInt 0⟩ },
    ball := { rect := ⟨100, 300, 10, 10⟩, speed := ⟨qOfInt (-5), qOfInt 0⟩ },
    edges := ⟨0, 0, 700, 500⟩,
    state := { ball_released_speed := ⟨qOfInt 2, qOfInt (-2)⟩, score := 0, lifes := 4,
               is_game_over := false, is_ball_released := true, is_player_won := false } }

/-- A ball one tick away from falling past the bottom boundary, with one life
left and no block anywhere near it. -/
def s6ex : Level :=
  { blocks := [⟨0, ⟨600, 100, 45, 20⟩, false⟩],
    platform := { rect := ⟨300, 450, 65, 20⟩, speed := ⟨qOfInt 0, qOfInt 0⟩ },
    ball := { rect := ⟨350, 490, 15, 15⟩, speed := ⟨qOfInt 0, qOfInt 10⟩ },
    edges := ⟨0, 0, 700, 500⟩,
    state := { ball_released_speed := ⟨qOfInt 2, qOfInt (-2)⟩, score := 0, lifes := 1,
               is_game_over := false, is_ball_released := true, is_player_won := false } }

/-- A quiet mid-air state: released ball bouncing freely, nothing in reach. -/
def s7ex : Level :=
  { blocks := [⟨0, ⟨600, 100, 45, 20⟩, true⟩],
    platform := { rect := ⟨300, 450, 65, 20⟩, speed := ⟨qOfInt 0, qOfInt 0⟩ },
    ball := { rect := ⟨200, 200, 15, 15⟩, speed := ⟨qOfInt 2, qOfInt (-2)⟩ },
    edges := ⟨0, 0, 700, 500⟩,
    state := { ball_released_speed := ⟨qOfInt 2, qOfInt (-2)⟩, score := 0, lifes := 4,
               is_game_over := false, is_ball_released := true, is_player_won := false } }

/-- `s7ex` with the block unflagged (used where a tick must destroy nothing). -/
def s8ex : Level :=
  { s7ex with blocks := [⟨0, ⟨600, 100, 45, 20⟩, false⟩] }

/-- Scenario B ball: moving right at `(2, -2)`, its right edge overlapping the
paddle's span while its left edge does not. -/
def ballB : Ball := { rect := ⟨88, 55, 15, 15⟩, speed := ⟨qOfInt 2, qOfInt (-2)⟩ }

/-- Scenario B paddle. -/
def padB : Platform := { rect := ⟨100, 50, 65, 20⟩, speed := ⟨qOfInt 0, qOfInt 0⟩ }

/-- A mover horizontally contained in its obstacle's span. -/
def m5ex : Ball := { rect := ⟨10, 0, 5, 10⟩, speed := ⟨qOfInt 3, qOfInt 0⟩ }

/-- The obstacle containing `m5ex`. -/
def o5ex : Rect := ⟨0, 0, 100, 10⟩

/-- The flagged block of `s7ex`. -/
def b10ex : Block := ⟨0, ⟨600, 100, 45, 20⟩, true⟩

/-- A loop state whose level is already game over. -/
def st7ex : LoopState :=
  { level := { s7ex with state := { s7ex.state with is_game_over := true } },
    is_paused := false, is_menu_showing := false, running := true }

/-- Two frames of driver input without a DELETE event. -/
def fs7ex : List Frame :=
  [⟨[GEvent.spaceKey, GEvent.otherEv], inp0⟩, ⟨[GEvent.qKey], ⟨true, true, false⟩⟩]

/-- How one tick may rewrite one block: identity and rectangle are preserved
and the destroyed flag is never cleared. -/
def BlockStep (a b : Block) : Prop :=
  b.bid = a.bid ∧ b.rect = a.rect ∧ (a.is_destroyed = true → b.is_destroyed = true)

/-! ## The explicit rational operations agree with Mathlib's field operations -/

theorem qOfInt_eq (n : ℤ) : qOfInt n = (n : ℚ) := by
  unfold qOfInt
  rw [Rat.mkRat_eq_div]
  simp

theorem qNeg_eq (a : ℚ) : qNeg a = -a := by
  unfold qNeg
  rw [Rat.mkRat_eq_div]
  push_cast
  rw [neg_div, Rat.num_div_den]

theorem qAdd_eq (a b : ℚ) : qAdd a b = a + b := by
  unfold qAdd
  have ha : ((a.den : ℤ) : ℚ) ≠ 0 := by
    exact_mod_cast (Nat.cast_ne_zero (R := ℚ)).mpr a.den_nz
  have hb : ((b.den : ℤ) : ℚ) ≠ 0 := by
    exact_mod_cast (Nat.cast_ne_zero (R := ℚ)).mpr b.den_nz
  rw [Rat.mkRat_eq_div]
  conv_rhs => rw [← Rat.num_div_den a, ← Rat.num_div_den b]
  push_cast
  field_simp

theorem qSub_eq (a b : ℚ) : qSub a b = a - b := by
  unfold qSub
  rw [qAdd_eq, qNeg_eq]
  ring

theorem qMul_eq (a b : ℚ) : qMul a b = a * b := by
  unfold qMul
  have ha : ((a.den : ℤ) : ℚ) ≠ 0 := by
    exact_mod_cast (Nat.cast_ne_zero (R := ℚ)).mpr a.den_nz
  have hb : ((b.den : ℤ) : ℚ) ≠ 0 := by
    exact_mod_cast (Nat.cast_ne_zero (R := ℚ)).mpr b.den_nz
  rw [Rat.mkRat_eq_div]
  conv_rhs => rw [← Rat.num_div_den a, ← Rat.num_div_den b]
  push_cast
  field_simp

theorem qAbs_eq (a : ℚ) : qAbs a = |a| := by
  unfold qAbs
  split_ifs with h
  · rw [qNeg_eq, abs_of_neg]
    exact_mod_cast Rat.num_neg.mp h
  · rw [abs_of_nonneg]
    exact_mod_cast Rat.num_nonneg.mp (not_lt.mp h)

/-! ## Helper lemmas: the block relation -/

theorem blockStep_refl (a : Block) : BlockStep a a := ⟨rfl, rfl, id⟩

theorem forall2_blockStep_refl (l : List Block) : List.Forall₂ BlockStep l l := by
  induction l with
  | nil => exact .nil
  | cons a t ih => exact .cons (blockStep_refl a) ih

theorem forall2_blockStep_trans {l1 l2 l3 : List Block}
    (h12 : List.Forall₂ BlockStep l1 l2) (h23 : List.Forall₂ BlockStep l2 l3) :
    List.Forall₂ BlockStep l1 l3 := by
  induction h12 generalizing l3 with
  | nil => cases h23; exact .nil
  | cons hab _ ih =>
    cases h23 with
    | cons hbc h23t =>
      exact .cons ⟨hbc.1.trans hab.1, hbc.2.1.trans hab.2.1,
        fun hd => hbc.2.2 (hab.2.2 hd)⟩ (ih h23t)

theorem forall2_mem_right {R : Block → Block → Prop} {l1 l2 : List Block}
    (h : List.Forall₂ R l1 l2) {b : Block} (hb : b ∈ l2) : ∃ a ∈ l1, R a b := by
  induction h with
  | nil => cases hb
  | cons hab _ ih =>
    rcases List.mem_cons.1 hb with rfl | hb2
    · exact ⟨_, List.mem_cons_self _ _, hab⟩
    · obtain ⟨a, ha, hr⟩ := ih hb2
      exact ⟨a, List.mem_cons_of_mem _ ha, hr⟩

theorem forall2_mem_left {R : Block → Block → Prop} {l1 l2 : List Block}
    (h : List.Forall₂ R l1 l2) {a : Block} (ha : a ∈ l1) : ∃ b ∈ l2, R a b := by
  induction h with
  | nil => cases ha
  | cons hab _ ih =>
    rcases List.mem_cons.1 ha with rfl | ha2
    · exact ⟨_, List.mem_cons_self _ _, hab⟩
    · obtain ⟨b, hb, hr⟩ := ih ha2
      exact ⟨b, List.mem_cons_of_mem _ hb, hr⟩

theorem forall2_blockStep_map_bid {l1 l2 : List Block}
    (h : List.Forall₂ BlockStep l1 l2) : l2.map Block.bid = l1.map Block.bid := by
  induction h with
  | nil => rfl
  | cons hab _ ih => simp [ih, hab.1]

/-! ## Helper lemmas: the per-axis block loops -/

theorem xBlocksLoop_forall2 (ball : Ball) (bs : List Block) :
    List.Forall₂ BlockStep bs (xBlocksLoop ball bs).2 := by
  induction bs generalizing ball with
  | nil => exact .nil
  | cons b t ih =>
    simp only [xBlocksLoop]
    split_ifs with h
    · exact .cons ⟨rfl, rfl, fun _ => rfl⟩ (ih _)
    · exact .cons (blockStep_refl b) (ih _)

theorem yBlocksLoop_forall2 (ball : Ball) (bs : List Block) :
    List.Forall₂ BlockStep bs (yBlocksLoop ball bs).2 := by
  induction bs generalizing ball with
  | nil => exact .nil
  | cons b t ih =>
    simp only [yBlocksLoop]
    split_ifs with h
    · exact .cons ⟨rfl, rfl, fun _ => rfl⟩ (ih _)
    · exact .cons (blockStep_refl b) (ih _)

theorem xBlocksLoop_speed (ball : Ball) (bs : List Block) :
    |(xBlocksLoop ball bs).1.speed.x| = |ball.speed.x| ∧
      (xBlocksLoop ball bs).1.speed.y = ball.speed.y := by
  induction bs generalizing ball with
  | nil => exact ⟨rfl, rfl⟩
  | cons b t ih =>
    simp only [xBlocksLoop]
    split_ifs with h
    · have h2 := ih (adjust_on_x_collision ball b.rect)
      simpa [adjust_on_x_collision, qNeg_eq, abs_neg] using h2
    · exact ih ball

theorem yBlocksLoop_speed (ball : Ball) (bs : List Block) :
    (yBlocksLoop ball bs).1.speed.x = ball.speed.x ∧
      |(yBlocksLoop ball bs).1.speed.y| = |ball.speed.y| := by
  induction bs generalizing ball with
  | nil => exact ⟨rfl, rfl⟩
  | cons b t ih =>
    simp only [yBlocksLoop]
    split_ifs with h
    · have h2 := ih (adjust_on_y_collision ball)
      simpa [adjust_on_y_collision, qNeg_eq, abs_neg] using h2
    · exact ih ball

/-! ## Helper lemmas: the cleanup loop -/

theorem cleanupLoop_nil (sc : ℤ) (sp : Vec2) : cleanupLoop [] sc sp = ([], sc, sp) := rfl

theorem cleanupLoop_one_destroyed (b : Block) (sc : ℤ) (sp : Vec2)
    (hd : b.is_destroyed = true) :
    cleanupLoop [b] sc sp = ([], sc + 100, speedUp sp) := by
  rw [cleanupLoop.eq_def]; simp [hd]

theorem cleanupLoop_cons_destroyed (b b2 : Block) (bs2 : List Block) (sc : ℤ) (sp : Vec2)
    (hd : b.is_destroyed = true) :
    cleanupLoop (b :: b2 :: bs2) sc sp =
      (b2 :: (cleanupLoop bs2 (sc + 100) (speedUp sp)).1,
        (cleanupLoop bs2 (sc + 100) (speedUp sp)).2) := by
  rw [cleanupLoop.eq_def]; simp [hd]

theorem cleanupLoop_cons_alive (b : Block) (bs : List Block) (sc : ℤ) (sp : Vec2)
    (hd : ¬ b.is_destroyed = true) :
    cleanupLoop (b :: bs) sc sp =
      (b :: (cleanupLoop bs sc sp).1, (cleanupLoop bs sc sp).2) := by
  rw [cleanupLoop.eq_def]; simp [hd]

theorem cleanupLoop_sublist (bs : List Block) (sc : ℤ) (sp : Vec2) :
    (cleanupLoop bs sc sp).1.Sublist bs := by
  induction bs, sc, sp using cleanupLoop.induct with
  | case1 sc sp => exact List.Sublist.refl _
  | case2 sc sp b hd =>
    rw [cleanupLoop_one_destroyed b sc sp hd]
    exact List.nil_sublist _
  | case3 sc sp b hd b2 bs2 ih =>
    rw [cleanupLoop_cons_destroyed b b2 bs2 sc sp hd]
    exact List.Sublist.cons _ (List.Sublist.cons₂ _ ih)
  | case4 sc sp b bs hd ih =>
    rw [cleanupLoop_cons_alive b bs sc sp hd]
    exact List.Sublist.cons₂ _ ih

theorem cleanupLoop_score (bs : List Block) (sc : ℤ) (sp : Vec2) :
    (cleanupLoop bs sc sp).2.1 =
      sc + 100 * ((bs.length : ℤ) - ((cleanupLoop bs sc sp).1.length : ℤ)) := by
  induction bs, sc, sp using cleanupLoop.induct with
  | case1 sc sp => simp [cleanupLoop_nil]
  | case2 sc sp b hd =>
    rw [cleanupLoop_one_destroyed b sc sp hd]
    simp
  | case3 sc sp b hd b2 bs2 ih =>
    rw [cleanupLoop_cons_destroyed b b2 bs2 sc sp hd]
    simp only [List.length_cons]
    push_cast
    push_cast at ih
    omega
  | case4 sc sp b bs hd ih =>
    rw [cleanupLoop_cons_alive b bs sc sp hd]
    simp only [List.length_cons]
    push_cast
    push_cast at ih
    omega

theorem cleanupLoop_length_lt (bs : List Block) (sc : ℤ) (sp : Vec2) :
    (∃ b ∈ bs, b.is_destroyed = true) → (cleanupLoop bs sc sp).1.length < bs.length := by
  induction bs, sc, sp using cleanupLoop.induct with
  | case1 sc sp => rintro ⟨b, hb, -⟩; cases hb
  | case2 sc sp b hd =>
    intro _
    rw [cleanupLoop_one_destroyed b sc sp hd]
    simp
  | case3 sc sp b hd b2 bs2 ih =>
    intro _
    have h1 := (cleanupLoop_sublist bs2 (sc + 100) (speedUp sp)).length_le
    rw [cleanupLoop_cons_destroyed b b2 bs2 sc sp hd]
    simp only [List.length_cons]
    omega
  | case4 sc sp b bs hd ih =>
    rintro ⟨c, hc, hcd⟩
    rcases List.mem_cons.1 hc with rfl | hc2
    · rw [hcd] at hd; simp at hd
    · have h1 := ih ⟨c, hc2, hcd⟩
      rw [cleanupLoop_cons_alive b bs sc sp hd]
      simp only [List.length_cons]
      omega

theorem cleanupLoop_noflag (bs : List Block) (sc : ℤ) (sp : Vec2) :
    (∀ b ∈ bs, b.is_destroyed = false) → cleanupLoop bs sc sp = (bs, sc, sp) := by
  induction bs, sc, sp using cleanupLoop.induct with
  | case1 sc sp => intro _; rfl
  | case2 sc sp b hd =>
    intro hall
    have h2 := hall b (List.mem_cons_self _ _)
    rw [h2] at hd; cases hd
  | case3 sc sp b hd b2 bs2 ih =>
    intro hall
    have h2 := hall b (List.mem_cons_self _ _)
    rw [h2] at hd; cases hd
  | case4 sc sp b bs hd ih =>
    intro hall
    have h2 := ih fun c hc => hall c (List.mem_cons_of_mem _ hc)
    rw [cleanupLoop_cons_alive b bs sc sp hd, h2]

theorem speedUp_zero (sp : Vec2) (hx : sp.x = 0) (hy : sp.y = 0) :
    (speedUp sp).x = 0 ∧ (speedUp sp).y = 0 := by
  simp [speedUp, qMul_eq, hx, hy]

theorem cleanupLoop_speed_zero (bs : List Block) (sc : ℤ) (sp : Vec2) :
    sp.x = 0 → sp.y = 0 →
      (cleanupLoop bs sc sp).2.2.x = 0 ∧ (cleanupLoop bs sc sp).2.2.y = 0 := by
  induction bs, sc, sp using cleanupLoop.induct with
  | case1 sc sp => intro hx hy; exact ⟨hx, hy⟩
  | case2 sc sp b hd =>
    intro hx hy
    rw [cleanupLoop_one_destroyed b sc sp hd]
    exact speedUp_zero sp hx hy
  | case3 sc sp b hd b2 bs2 ih =>
    intro hx hy
    rw [cleanupLoop_cons_destroyed b b2 bs2 sc sp hd]
    exact ih (speedUp_zero sp hx hy).1 (speedUp_zero sp hx hy).2
  | case4 sc sp b bs hd ih =>
    intro hx hy
    rw [cleanupLoop_cons_alive b bs sc sp hd]
    exact ih hx hy

/-! ## Helper lemmas: what each stage of the tick leaves untouched -/

theorem process_key_presses_blocks (i : Input) (s : Level) :
    (Level.process_key_presses i s).blocks = s.blocks := by
  simp only [Level.process_key_presses, keyMoveUpdate, Level.release_ball]
  split_ifs <;> rfl

theorem process_key_presses_edges (i : Input) (s : Level) :
    (Level.process_key_presses i s).edges = s.edges := by
  simp only [Level.process_key_presses, keyMoveUpdate, Level.release_ball]
  split_ifs <;> rfl

theorem process_key_presses_score (i : Input) (s : Level) :
    (Level.process_key_presses i s).state.score = s.state.score := by
  simp only [Level.process_key_presses, keyMoveUpdate, Level.release_ball]
  split_ifs <;> rfl

theorem process_key_presses_lifes (i : Input) (s : Level) :
    (Level.process_key_presses i s).state.lifes = s.state.lifes := by
  simp only [Level.process_key_presses, keyMoveUpdate, Level.release_ball]
  split_ifs <;> rfl

theorem keyMoveUpdate_ball_speed (t : Level) :
    (keyMoveUpdate t).ball.speed = t.ball.speed := by
  unfold keyMoveUpdate; split_ifs <;> rfl

theorem process_key_presses_ball_speed (i : Input) (s : Level)
    (h : i.ctrl = false ∨ s.state.is_ball_released = true) :
    (Level.process_key_presses i s).ball.speed = s.ball.speed := by
  have h1 : (if i.ctrl = true then s.release_ball else s).ball.speed = s.ball.speed := by
    split_ifs with hc
    · rcases h with h | h
      · rw [hc] at h; cases h
      · unfold Level.release_ball; rw [if_pos h]
    · rfl
  simp only [Level.process_key_presses]
  split_ifs at h1 ⊢ <;>
    simp_all [keyMoveUpdate_ball_speed]

theorem xPass_platform (s : Level) : (xPass s).platform = s.platform := by
  simp only [xPass]; split_ifs <;> rfl

theorem xPass_edges (s : Level) : (xPass s).edges = s.edges := by
  simp only [xPass]; split_ifs <;> rfl

theorem xPass_state (s : Level) : (xPass s).state = s.state := by
  simp only [xPass]; split_ifs <;> rfl

theorem xPass_blocks (s : Level) :
    List.Forall₂ BlockStep s.blocks (xPass s).blocks := by
  simp only [xPass]
  split_ifs
  · exact forall2_blockStep_refl _
  · exact forall2_blockStep_refl _
  · exact forall2_blockStep_refl _
  · exact xBlocksLoop_forall2 _ _

theorem xPass_speed (s : Level) :
    |(xPass s).ball.speed.x| = |s.ball.speed.x| ∧
      (xPass s).ball.speed.y = s.ball.speed.y := by
  simp only [xPass]
  split_ifs
  · simp [adjust_on_x_collision, Ball.moveX, qNeg_eq, abs_neg]
  · simp [Ball.moveX, qNeg_eq, abs_neg]
  · simp [Ball.moveX, qNeg_eq, abs_neg]
  · exact xBlocksLoop_speed s.ball.moveX s.blocks

theorem yPass_platform (s : Level) : (yPass s).platform = s.platform := by
  simp only [yPass, Level.reset_ball]; split_ifs <;> rfl

theorem yPass_edges (s : Level) : (yPass s).edges = s.edges := by
  simp only [yPass, Level.reset_ball]; split_ifs <;> rfl

theorem yPass_score (s : Level) : (yPass s).state.score = s.state.score := by
  simp only [yPass, Level.reset_ball]; split_ifs <;> rfl

theorem yPass_blocks (s : Level) :
    List.Forall₂ BlockStep s.blocks (yPass s).blocks := by
  simp only [yPass, Level.reset_ball]
  split_ifs
  · exact forall2_blockStep_refl _
  · exact forall2_blockStep_refl _
  · exact forall2_blockStep_refl _
  · exact yBlocksLoop_forall2 _ _

theorem yPass_speed (s : Level) (h : ¬ lifeLossNow s) :
    (yPass s).ball.speed.x = s.ball.speed.x ∧
      |(yPass s).ball.speed.y| = |s.ball.speed.y| := by
  simp only [yPass]
  split_ifs with h1 h2 h3
  · simp [adjust_on_y_collision, Ball.moveY, qNeg_eq, abs_neg]
  · exact absurd ⟨h1, h2⟩ h
  · simp [Ball.moveY, qNeg_eq, abs_neg]
  · exact yBlocksLoop_speed s.ball.moveY s.blocks

theorem yPass_lifeloss (s : Level) (h : lifeLossNow s) :
    yPass s =
      { s with
        ball := { rect := ((s.ball.moveY.rect.setBottom s.platform.rect.top).setCenterx
                             s.platform.rect.centerx),
                  speed := ⟨0, 0⟩ },
        state := { s.state with is_ball_released := false, lifes := s.state.lifes - 1 } } := by
  obtain ⟨h1, h2⟩ := h
  simp only [yPass, Level.reset_ball]
  rw [if_neg h1, if_pos h2]

theorem squeezeCorrect_blocks (s : Level) : (squeezeCorrect s).blocks = s.blocks := by
  unfold squeezeCorrect; split_ifs <;> rfl

theorem squeezeCorrect_platform (s : Level) : (squeezeCorrect s).platform = s.platform := by
  unfold squeezeCorrect; split_ifs <;> rfl

theorem squeezeCorrect_edges (s : Level) : (squeezeCorrect s).edges = s.edges := by
  unfold squeezeCorrect; split_ifs <;> rfl

theorem squeezeCorrect_state (s : Level) : (squeezeCorrect s).state = s.state := by
  unfold squeezeCorrect; split_ifs <;> rfl

theorem squeezeCorrect_ball_speed (s : Level) :
    (squeezeCorrect s).ball.speed = s.ball.speed := by
  unfold squeezeCorrect; split_ifs <;> rfl

theorem squeezeCorrect_of_guard (s : Level) (h : squeezeGuard s) :
    (squeezeCorrect s).ball.rect = s.ball.rect.setTop s.platform.rect.bottom := by
  unfold squeezeCorrect; rw [if_pos h]

theorem squeezeCorrect_of_not_guard (s : Level) (h : ¬ squeezeGuard s) :
    squeezeCorrect s = s := by
  unfold squeezeCorrect; rw [if_neg h]

theorem platformClamp_blocks (s : Level) : (platformClamp s).blocks = s.blocks := by
  unfold platformClamp; split_ifs <;> rfl

theorem platformClamp_ball (s : Level) : (platformClamp s).ball = s.ball := by
  unfold platformClamp; split_ifs <;> rfl

theorem platformClamp_edges (s : Level) : (platformClamp s).edges = s.edges := by
  unfold platformClamp; split_ifs <;> rfl

theorem platformClamp_state (s : Level) : (platformClamp s).state = s.state := by
  unfold platformClamp; split_ifs <;> rfl

theorem platformClamp_inside (s : Level)
    (h1 : ¬ s.platform.rect.right > s.edges.right)
    (h2 : ¬ s.platform.rect.left < s.edges.left) :
    platformClamp s = s := by
  unfold platformClamp; rw [if_neg h1, if_neg h2]

/-! ## Helper lemmas: `process_collisions` as a whole -/

theorem process_collisions_blocks (s : Level) :
    List.Forall₂ BlockStep s.blocks (Level.process_collisions s).blocks := by
  unfold Level.process_collisions
  rw [platformClamp_blocks, squeezeCorrect_blocks]
  exact forall2_blockStep_trans (xPass_blocks s) (yPass_blocks (xPass s))

theorem process_collisions_length (s : Level) :
    (Level.process_collisions s).blocks.length = s.blocks.length :=
  (process_collisions_blocks s).length_eq.symm

theorem process_collisions_score (s : Level) :
    (Level.process_collisions s).state.score = s.state.score := by
  unfold Level.process_collisions
  rw [platformClamp_state, squeezeCorrect_state, yPass_score, xPass_state]

theorem process_collisions_ball_speed (s : Level) (h : ¬ lifeLossNow (xPass s)) :
    |(Level.process_collisions s).ball.speed.x| = |s.ball.speed.x| ∧
      |(Level.process_collisions s).ball.speed.y| = |s.ball.speed.y| := by
  unfold Level.process_collisions
  rw [platformClamp_ball, squeezeCorrect_ball_speed]
  obtain ⟨hy1, hy2⟩ := yPass_speed (xPass s) h
  obtain ⟨hx1, hx2⟩ := xPass_speed s
  rw [hx2] at hy2
  rw [hy1]
  exact ⟨hx1, hy2⟩

/-! ## Helper lemmas: one whole tick (`Level.update`) -/

theorem update_blocks_eq (i : Input) (s : Level) :
    (Level.update i s).blocks =
      (cleanupLoop (afterCollisions i s).blocks (afterCollisions i s).state.score
        (afterCollisions i s).ball.speed).1 := by
  simp only [Level.update, afterCollisions]
  split_ifs <;> rfl

theorem update_score_eq (i : Input) (s : Level) :
    (Level.update i s).state.score =
      (cleanupLoop (afterCollisions i s).blocks (afterCollisions i s).state.score
        (afterCollisions i s).ball.speed).2.1 := by
  simp only [Level.update, afterCollisions]
  split_ifs <;> rfl

theorem update_speed_eq (i : Input) (s : Level) :
    (Level.update i s).ball.speed =
      (cleanupLoop (afterCollisions i s).blocks (afterCollisions i s).state.score
        (afterCollisions i s).ball.speed).2.2 := by
  simp only [Level.update, afterCollisions]
  split_ifs <;> rfl

theorem update_ball_rect_eq (i : Input) (s : Level) :
    (Level.update i s).ball.rect = (afterCollisions i s).ball.rect := by
  simp only [Level.update, afterCollisions]
  split_ifs <;> rfl

theorem update_lifes_eq (i : Input) (s : Level) :
    (Level.update i s).state.lifes = (afterCollisions i s).state.lifes := by
  simp only [Level.update, afterCollisions]
  split_ifs <;> rfl

theorem update_released_eq (i : Input) (s : Level) :
    (Level.update i s).state.is_ball_released =
      (afterCollisions i s).state.is_ball_released := by
  simp only [Level.update, afterCollisions]
  split_ifs <;> rfl

theorem update_platform_eq (i : Input) (s : Level) :
    (Level.update i s).platform = (afterCollisions i s).platform := by
  simp only [Level.update, afterCollisions]
  split_ifs <;> rfl

theorem update_gameover_true (i : Input) (s : Level)
    (h : (afterCollisions i s).state.lifes < 1) :
    (Level.update i s).state.is_game_over = true := by
  simp only [Level.update, afterCollisions] at h ⊢
  split_ifs
  rfl

theorem afterCollisions_blocks (i : Input) (s : Level) :
    List.Forall₂ BlockStep s.blocks (afterCollisions i s).blocks := by
  unfold afterCollisions
  have h := process_collisions_blocks (Level.process_key_presses i s)
  rwa [process_key_presses_blocks] at h

theorem afterCollisions_length (i : Input) (s : Level) :
    (afterCollisions i s).blocks.length = s.blocks.length :=
  (afterCollisions_blocks i s).length_eq.symm

theorem afterCollisions_score (i : Input) (s : Level) :
    (afterCollisions i s).state.score = s.state.score := by
  unfold afterCollisions
  rw [process_collisions_score, process_key_presses_score]

theorem update_score_length (i : Input) (s : Level) :
    (Level.update i s).state.score =
        s.state.score + 100 * ((s.blocks.length : ℤ) - ((Level.update i s).blocks.length : ℤ)) ∧
      (Level.update i s).blocks.length ≤ s.blocks.length := by
  rw [update_score_eq, update_blocks_eq]
  have h1 := cleanupLoop_score (afterCollisions i s).blocks (afterCollisions i s).state.score
    (afterCollisions i s).ball.speed
  have h2 := (cleanupLoop_sublist (afterCollisions i s).blocks
    (afterCollisions i s).state.score (afterCollisions i s).ball.speed).length_le
  have h3 := afterCollisions_score i s
  have h4 := afterCollisions_length i s
  exact ⟨by omega, by omega⟩

theorem update_provenance (i : Input) (s : Level) :
    ∀ b' ∈ (Level.update i s).blocks, ∃ b ∈ s.blocks, BlockStep b b' := by
  intro b' hb'
  rw [update_blocks_eq] at hb'
  have h2 : b' ∈ (afterCollisions i s).blocks :=
    (cleanupLoop_sublist _ _ _).subset hb'
  exact forall2_mem_right (afterCollisions_blocks i s) h2

theorem update_nodup (i : Input) (s : Level) (h : (s.blocks.map Block.bid).Nodup) :
    ((Level.update i s).blocks.map Block.bid).Nodup := by
  rw [update_blocks_eq]
  have h2 := forall2_blockStep_map_bid (afterCollisions_blocks i s)
  have h3 := (cleanupLoop_sublist (afterCollisions i s).blocks
    (afterCollisions i s).state.score (afterCollisions i s).ball.speed).map Block.bid
  exact h3.nodup (h2 ▸ h)

theorem update_removes (i : Input) (s : Level) {b : Block}
    (hb : b ∈ s.blocks) (hd : b.is_destroyed = true) :
    (Level.update i s).blocks.length < s.blocks.length := by
  rw [update_blocks_eq]
  obtain ⟨b2, hb2, hstep⟩ := forall2_mem_left (afterCollisions_blocks i s) hb
  obtain ⟨n, hget⟩ := List.mem_iff_get.1 hb2
  have h4 : (cleanupLoop (afterCollisions i s).blocks (afterCollisions i s).state.score
      (afterCollisions i s).ball.speed).1.length < (afterCollisions i s).blocks.length :=
    cleanupLoop_length_lt _ _ _ ⟨b2, hb2, hstep.2.2 hd⟩
  rwa [afterCollisions_length] at h4

theorem update_keeps_flag (i : Input) (s : Level)
    (hnd : (s.blocks.map Block.bid).Nodup) {b : Block}
    (hb : b ∈ s.blocks) (hd : b.is_destroyed = true) :
    ∀ b' ∈ (Level.update i s).blocks, b'.bid = b.bid → b'.is_destroyed = true := by
  intro b' hb' hbid
  obtain ⟨a, ha, hstep⟩ := update_provenance i s b' hb'
  have hab : a = b := List.inj_on_of_nodup_map hnd ha hb (hstep.1 ▸ hbid)
  exact hstep.2.2 (hab ▸ hd)

theorem update_gone (i : Input) (s : Level) (n : ℕ)
    (h : ∀ b' ∈ s.blocks, b'.bid ≠ n) :
    ∀ b' ∈ (Level.update i s).blocks, b'.bid ≠ n := by
  intro b' hb'
  obtain ⟨a, ha, hstep⟩ := update_provenance i s b' hb'
  rw [hstep.1]
  exact h a ha

/-! ## Helper lemmas: iterated ticks -/

theorem iterUpdate_cons (i : Input) (rest : List Input) (s : Level) :
    iterUpdate (i :: rest) s = iterUpdate rest (Level.update i s) := rfl

theorem iter_gone (inps : List Input) (s : Level) (n : ℕ)
    (h : ∀ b' ∈ s.blocks, b'.bid ≠ n) :
    ∀ b' ∈ (iterUpdate inps s).blocks, b'.bid ≠ n := by
  induction inps generalizing s with
  | nil => exact h
  | cons i rest ih => exact ih (Level.update i s) (update_gone i s n h)

theorem iter_length_le (inps : List Input) (s : Level) :
    (iterUpdate inps s).blocks.length ≤ s.blocks.length := by
  induction inps generalizing s with
  | nil => exact le_refl _
  | cons i rest ih =>
    exact (ih (Level.update i s)).trans (update_score_length i s).2

theorem iter_score (inps : List Input) (s : Level) :
    (iterUpdate inps s).state.score =
      s.state.score +
        100 * ((s.blocks.length : ℤ) - ((iterUpdate inps s).blocks.length : ℤ)) := by
  induction inps generalizing s with
  | nil => simp [iterUpdate]
  | cons i rest ih =>
    rw [iterUpdate_cons, ih (Level.update i s), (update_score_length i s).1]
    ring

theorem iter_eventually_removed (inps : List Input) (s : Level) (b : Block)
    (hnd : (s.blocks.map Block.bid).Nodup) (hb : b ∈ s.blocks)
    (hd : b.is_destroyed = true) (hlen : s.blocks.length ≤ inps.length) :
    ∀ b' ∈ (iterUpdate inps s).blocks, b'.bid ≠ b.bid := by
  induction inps generalizing s b with
  | nil =>
    simp only [List.length_nil, Nat.le_zero, List.length_eq_zero] at hlen
    rw [hlen] at hb
    cases hb
  | cons i rest ih =>
    rw [iterUpdate_cons]
    by_cases hex : ∃ b2 ∈ (Level.update i s).blocks, b2.bid = b.bid
    · obtain ⟨b2, hb2, hbid⟩ := hex
      have hd2 : b2.is_destroyed = true := update_keeps_flag i s hnd hb hd b2 hb2 hbid
      have hlt : (Level.update i s).blocks.length < s.blocks.length :=
        update_removes i s hb hd
      have hlen2 : (Level.update i s).blocks.length ≤ rest.length := by
        simp only [List.length_cons] at hlen
        omega
      intro b' hb'
      rw [← hbid]
      exact ih (Level.update i s) b2 (update_nodup i s hnd) hb2 hd2 hlen2 b' hb'
    · push_neg at hex
      exact iter_gone rest (Level.update i s) b.bid hex

/-! ## Helper lemmas: the driver loop -/

theorem handleEvent_level (fresh : Level) (st : LoopState) (ev : GEvent)
    (h : ev ≠ GEvent.deleteKey) : (handleEvent fresh st ev).level = st.level := by
  cases ev
  · rfl
  · rfl
  · rfl
  · exact absurd rfl h
  · rfl

theorem eventsFold_level (fresh : Level) (st : LoopState) (evs : List GEvent)
    (h : GEvent.deleteKey ∉ evs) :
    (evs.foldl (handleEvent fresh) st).level = st.level := by
  induction evs generalizing st with
  | nil => rfl
  | cons e t ih =>
    rw [List.foldl_cons,
      ih (handleEvent fresh st e) (fun ht => h (List.mem_cons_of_mem _ ht)),
      handleEvent_level fresh st e (fun he => h (he ▸ List.mem_cons_self _ _))]

theorem gameFrame_frozen (fresh : Level) (st : LoopState) (f : Frame)
    (hgo : st.level.state.is_game_over = true)
    (h : GEvent.deleteKey ∉ f.events) : (gameFrame fresh st f).level = st.level := by
  have h1 := eventsFold_level fresh st f.events h
  simp only [gameFrame]
  rw [h1, hgo, if_pos rfl]
  exact h1

theorem runFrames_frozen (fresh : Level) (st : LoopState) (fs : List Frame)
    (hgo : st.level.state.is_game_over = true)
    (hnd : ∀ f ∈ fs, GEvent.deleteKey ∉ f.events) :
    (runFrames fresh st fs).level = st.level := by
  induction fs generalizing st with
  | nil => rfl
  | cons f t ih =>
    have h1 := gameFrame_frozen fresh st f hgo (hnd f (List.mem_cons_self _ _))
    have h2 : (gameFrame fresh st f).level.state.is_game_over = true := by
      rw [h1]; exact hgo
    have h3 := ih (gameFrame fresh st f) h2 (fun g hg => hnd g (List.mem_cons_of_mem _ hg))
    calc (runFrames fresh st (f :: t)).level
        = (runFrames fresh (gameFrame fresh st f) t).level := rfl
      _ = (gameFrame fresh st f).level := h3
      _ = st.level := h1

/-! ## Claim C1: the anti-squeeze correction -/

/-- C1 (counterexample): after the X and Y passes of a concrete tick, the
ball's vertical span has crossed into the paddle's vertical span AND its
horizontal span is outside the boundary — exactly the claim's trigger — yet
the tick does NOT place the ball above the paddle: the ball's bottom edge ends
strictly below the paddle's top edge (the code assigns `ball.rect.top =
platform.rect.bottom`, i.e. directly BELOW the paddle). -/
theorem c1_squeeze_counterexample :
    ((afterPasses inp0 s1ex).ball.rect.bottom > (afterPasses inp0 s1ex).platform.rect.top ∧
      (afterPasses inp0 s1ex).ball.rect.top < (afterPasses inp0 s1ex).platform.rect.bottom ∧
      ((afterPasses inp0 s1ex).ball.rect.right > (afterPasses inp0 s1ex).edges.right ∨
        (afterPasses inp0 s1ex).ball.rect.left < (afterPasses inp0 s1ex).edges.left)) ∧
    ¬ (Level.update inp0 s1ex).ball.rect.bottom ≤ (Level.update inp0 s1ex).platform.rect.top := by
  decide

/-- C1 (amended): the squeeze correction fires exactly when, after the X and Y
passes, `(ball.bottom < paddle.top ∨ ball.top < paddle.bottom) ∧
(ball.right > boundary.right ∨ ball.left < boundary.left)` (the source's
`squeezeGuard`), and its effect is to set the ball's TOP edge to the paddle's
BOTTOM edge — placing the ball directly below the paddle, not above it;
otherwise the tick leaves the post-pass ball rectangle unchanged. -/
theorem c1_squeeze_amended (i : Input) (s : Level) :
    (squeezeGuard (afterPasses i s) →
        (Level.update i s).ball.rect =
          (afterPasses i s).ball.rect.setTop (afterPasses i s).platform.rect.bottom) ∧
      (¬ squeezeGuard (afterPasses i s) →
        (Level.update i s).ball.rect = (afterPasses i s).ball.rect) := by
  have hrect : (Level.update i s).ball.rect = (squeezeCorrect (afterPasses i s)).ball.rect := by
    rw [update_ball_rect_eq]
    unfold afterCollisions Level.process_collisions afterPasses
    rw [platformClamp_ball]
  constructor
  · intro h; rw [hrect, squeezeCorrect_of_guard _ h]
  · intro h; rw [hrect, squeezeCorrect_of_not_guard _ h]

/-- C1 (witness for the amended theorem, at the squeezed state `s1ex`). -/
theorem c1_squeeze_witness :
    (Level.update inp0 s1ex).ball.rect =
      (afterPasses inp0 s1ex).ball.rect.setTop (afterPasses inp0 s1ex).platform.rect.bottom :=
  (c1_squeeze_amended inp0 s1ex).1 (by decide)

/-! ## Claim C2: block cleanup and scoring -/

/-- C2 (counterexample): a tick that flags both of its blocks during the
collision passes (they start unflagged) but whose cleanup removes only the
first — the iterate-while-removing loop skips the flagged block that
immediately follows a removed one, so a block flagged destroyed during the
tick survives that tick's cleanup. -/
theorem c2_cleanup_counterexample :
    s2ex.blocks.map Block.is_destroyed = [false, false] ∧
      (Level.update inp0 s2ex).blocks.map Block.is_destroyed = [true] ∧
      (Level.update inp0 s2ex).state.score = 100 := by
  decide

/-- C2 (amended): per tick, the active block set never grows and the score
increases by exactly 100 per removed block — and over any run, the score
increases by exactly `100 × (number of blocks removed)`, with no other
operation changing score.  (Removal of a flagged block may however be delayed
by the cleanup loop's skipping, so "destroyed N blocks" must be read as "N
blocks removed by cleanup".) -/
theorem c2_score_conservation :
    (∀ (i : Input) (s : Level),
        (Level.update i s).state.score =
            s.state.score +
              100 * ((s.blocks.length : ℤ) - ((Level.update i s).blocks.length : ℤ)) ∧
          (Level.update i s).blocks.length ≤ s.blocks.length) ∧
      ∀ (inps : List Input) (s : Level),
        (iterUpdate inps s).state.score =
          s.state.score +
            100 * ((s.blocks.length : ℤ) - ((iterUpdate inps s).blocks.length : ℤ)) :=
  ⟨update_score_length, iter_score⟩

/-! ## Claim C3: X-axis resolution priority -/

/-- C3 (counterexample): a tick whose X pass resolves against and destroys TWO
blocks (both start unflagged): after the first resolution snaps the ball back,
the loop — which has no `break` — finds the ball colliding with a second
block and destroys it too. -/
theorem c3_priority_counterexample :
    s3ex.blocks.map Block.is_destroyed = [false, false] ∧
      (xPass (Level.process_key_presses inp0 s3ex)).blocks.map Block.is_destroyed =
        [true, true] := by
  decide

/-- C3 (amended): the X pass's branch priority is as claimed — paddle beats
right-boundary exit beats left-boundary exit beats blocks, and the branches
are mutually exclusive (in the first three, no block is touched) — but in the
block branch EVERY block colliding with the ball's successively updated
position is resolved and flagged, so more than one block can be destroyed in
one axis pass. -/
theorem c3_x_priority (s : Level) :
    (Collides s.ball.moveX.rect s.platform.rect →
        (xPass s).blocks = s.blocks ∧
          (xPass s).ball = adjust_on_x_collision s.ball.moveX s.platform.rect) ∧
      (¬ Collides s.ball.moveX.rect s.platform.rect →
          s.ball.moveX.rect.right > s.edges.right →
          (xPass s).blocks = s.blocks ∧ (xPass s).ball.rect.right = s.edges.right ∧
            (xPass s).ball.speed.x = -s.ball.speed.x) ∧
      (¬ Collides s.ball.moveX.rect s.platform.rect →
          ¬ s.ball.moveX.rect.right > s.edges.right →
          s.ball.moveX.rect.left < s.edges.left →
          (xPass s).blocks = s.blocks ∧ (xPass s).ball.rect.left = s.edges.left ∧
            (xPass s).ball.speed.x = -s.ball.speed.x) ∧
      (¬ Collides s.ball.moveX.rect s.platform.rect →
          ¬ s.ball.moveX.rect.right > s.edges.right →
          ¬ s.ball.moveX.rect.left < s.edges.left →
          (xPass s).platform = s.platform ∧ (xPass s).state = s.state ∧
            List.Forall₂ BlockStep s.blocks (xPass s).blocks) := by
  refine ⟨?_, ?_, ?_, ?_⟩
  · intro h1
    simp only [xPass]
    rw [if_pos h1]
    exact ⟨rfl, rfl⟩
  · intro h1 h2
    simp only [xPass]
    rw [if_neg h1, if_pos h2]
    refine ⟨rfl, ?_, qNeg_eq _⟩
    simp only [Rect.setRight, Rect.right]
    omega
  · intro h1 h2 h3
    simp only [xPass]
    rw [if_neg h1, if_neg h2, if_pos h3]
    exact ⟨rfl, rfl, qNeg_eq _⟩
  · intro h1 h2 h3
    simp only [xPass]
    rw [if_neg h1, if_neg h2, if_neg h3]
    exact ⟨rfl, rfl, xBlocksLoop_forall2 _ _⟩

/-- C3 (witness: the paddle branch takes priority at `s1ex`). -/
theorem c3_x_priority_witness :
    (xPass s1ex).blocks = s1ex.blocks ∧
      (xPass s1ex).ball = adjust_on_x_collision s1ex.ball.moveX s1ex.platform.rect :=
  (c3_x_priority s1ex).1 (by decide)

/-! ## Claim C4: the life-loss event (Scenario C) -/

/-- C4: if on some tick the Y pass finds the moved ball missing the paddle
with its bottom edge past the boundary's bottom edge, then — provided the
re-centered ball stays horizontally inside the boundary (so the squeeze
correction stays quiet) and the paddle is inside the boundary (so the clamp
stays quiet) — the tick decrements lifes by one, clears `is_ball_released`,
zeroes the ball's velocity, and re-seats the ball flush on top of the paddle,
horizontally centered; if `lifes` was 1, the tick ends with `lifes = 0` and
`is_game_over = true`. -/
theorem c4_life_loss (i : Input) (s : Level) :
    ∀ s2, s2 = xPass (Level.process_key_presses i s) →
    lifeLossNow s2 →
    s2.edges.left ≤ s2.platform.rect.centerx - Int.fdiv s2.ball.rect.w 2 →
    s2.platform.rect.centerx - Int.fdiv s2.ball.rect.w 2 + s2.ball.rect.w ≤ s2.edges.right →
    ¬ s2.platform.rect.right > s2.edges.right →
    ¬ s2.platform.rect.left < s2.edges.left →
    (Level.update i s).state.lifes = s.state.lifes - 1 ∧
      (Level.update i s).state.is_ball_released = false ∧
      (Level.update i s).ball.speed = (⟨0, 0⟩ : Vec2) ∧
      (Level.update i s).ball.rect.bottom = (Level.update i s).platform.rect.top ∧
      (Level.update i s).ball.rect.centerx = (Level.update i s).platform.rect.centerx ∧
      (s.state.lifes = 1 →
        (Level.update i s).state.lifes = 0 ∧ (Level.update i s).state.is_game_over = true) := by
  intro s2 hs2 hll hxl hxr hpr hpl
  subst hs2
  set s2 := xPass (Level.process_key_presses i s) with hs2
  simp only [Rect.left, Rect.right, Rect.centerx] at hxl hxr hpr hpl
  have hy := yPass_lifeloss s2 hll
  have hpl2 : (yPass s2).platform = s2.platform := yPass_platform s2
  have hed2 : (yPass s2).edges = s2.edges := yPass_edges s2
  have hnq : ¬ squeezeGuard (yPass s2) := by
    rw [hy]
    intro hq
    rcases hq.2 with hq2 | hq2
    · simp only [Rect.right, Rect.centerx, Rect.setCenterx, Rect.setBottom,
        Ball.moveY] at hq2
      omega
    · simp only [Rect.left, Rect.centerx, Rect.setCenterx, Rect.setBottom,
        Ball.moveY] at hq2
      omega
  have hac : afterCollisions i s = yPass s2 := by
    unfold afterCollisions Level.process_collisions
    rw [← hs2, squeezeCorrect_of_not_guard _ hnq,
      platformClamp_inside _ (by rw [hpl2, hed2]; exact hpr)
        (by rw [hpl2, hed2]; exact hpl)]
  have hTlifes : s2.state.lifes = s.state.lifes := by
    rw [hs2, xPass_state, process_key_presses_lifes]
  have hlifes : (Level.update i s).state.lifes = s.state.lifes - 1 := by
    rw [update_lifes_eq, hac, hy]
    show s2.state.lifes - 1 = s.state.lifes - 1
    rw [hTlifes]
  have hrect : (Level.update i s).ball.rect =
      (s2.ball.moveY.rect.setBottom s2.platform.rect.top).setCenterx
        s2.platform.rect.centerx := by
    rw [update_ball_rect_eq, hac, hy]
  have hplatU : (Level.update i s).platform = s2.platform := by
    rw [update_platform_eq, hac, hpl2]
  refine ⟨hlifes, ?_, ?_, ?_, ?_, ?_⟩
  · rw [update_released_eq, hac, hy]
  · have hz := cleanupLoop_speed_zero (afterCollisions i s).blocks
      (afterCollisions i s).state.score (afterCollisions i s).ball.speed
      (by rw [hac, hy]) (by rw [hac, hy])
    rw [update_speed_eq]
    obtain ⟨hzx, hzy⟩ := hz
    cases hzr : (cleanupLoop (afterCollisions i s).blocks (afterCollisions i s).state.score
      (afterCollisions i s).ball.speed).2.2 with
    | mk vx vy =>
      rw [hzr] at hzx hzy
      simp only at hzx hzy
      rw [hzx, hzy]
  · rw [hrect, hplatU]
    simp only [Rect.bottom, Rect.top, Rect.setCenterx, Rect.setBottom, Ball.moveY]
    omega
  · rw [hrect, hplatU]
    simp only [Rect.centerx, Rect.setCenterx, Rect.setBottom, Ball.moveY]
    omega
  · intro h1
    refine ⟨by rw [hlifes, h1]; decide, ?_⟩
    refine update_gameover_true i s ?_
    rw [hac, hy]
    show s2.state.lifes - 1 < 1
    omega

/-- C4 (witness: Scenario C at `s6ex`, which has `lifes = 1`). -/
theorem c4_life_loss_witness :
    (Level.update inp0 s6ex).state.lifes = 0 ∧
      (Level.update inp0 s6ex).state.is_game_over = true ∧
      (Level.update inp0 s6ex).state.is_ball_released = false ∧
      (Level.update inp0 s6ex).ball.speed = (⟨0, 0⟩ : Vec2) ∧
      (Level.update inp0 s6ex).ball.rect.bottom = (Level.update inp0 s6ex).platform.rect.top ∧
      (Level.update inp0 s6ex).ball.rect.centerx =
        (Level.update inp0 s6ex).platform.rect.centerx := by
  obtain ⟨h1, h2, h3, h4, h5, h6⟩ :=
    c4_life_loss inp0 s6ex _ rfl (by decide) (by decide) (by decide) (by decide) (by decide)
  obtain ⟨h7, h8⟩ := h6 (by decide)
  exact ⟨h7, h8, h2, h3, h4, h5⟩

/-! ## Claim C5: `resolveAxisX` -/

/-- C5 (counterexample): a mover whose rectangle overlaps the obstacle with
BOTH edges inside the obstacle's horizontal span.  The claim's guard ("right
edge inside AND left edge not inside") is false, so the claim prescribes
snapping the mover's left edge to the obstacle's right edge; the code instead
tests only the right edge and snaps the mover's right edge to the obstacle's
left edge. -/
theorem c5_adjust_counterexample :
    Collides m5ex.rect o5ex ∧
      ¬ ((o5ex.left < m5ex.rect.right ∧ m5ex.rect.right < o5ex.right) ∧
          ¬ (o5ex.left < m5ex.rect.left ∧ m5ex.rect.left < o5ex.right)) ∧
      (adjust_on_x_collision m5ex o5ex).rect.left ≠ o5ex.right := by
  decide

/-- C5 (amended): `adjust_on_x_collision` tests only the mover's leading
(right) edge: if it lies strictly inside the obstacle's horizontal span the
mover's right edge is snapped to the obstacle's left edge, in every other
overlap configuration the mover's left edge is snapped to the obstacle's
right edge; in both cases the X velocity is negated and the Y velocity kept.
Scenario B (right-edge-only overlap at velocity `(2, -2)`) is an instance of
the first branch — see the witness. -/
theorem c5_adjust_on_x (b : Ball) (o : Rect) (_hov : Collides b.rect o) :
    ((o.left < b.rect.right ∧ b.rect.right < o.right →
        (adjust_on_x_collision b o).rect.right = o.left) ∧
      (¬ (o.left < b.rect.right ∧ b.rect.right < o.right) →
        (adjust_on_x_collision b o).rect.left = o.right)) ∧
      (adjust_on_x_collision b o).speed.x = -b.speed.x ∧
      (adjust_on_x_collision b o).speed.y = b.speed.y := by
  refine ⟨⟨?_, ?_⟩, qNeg_eq _, rfl⟩
  · intro h
    unfold adjust_on_x_collision
    rw [if_pos h]
    simp only [Rect.setRight, Rect.right]
    omega
  · intro h
    unfold adjust_on_x_collision
    rw [if_neg h]
    rfl

/-- C5 (witness: Scenario B — right edge snapped to the paddle's left edge,
X velocity `2` becomes `-2`). -/
theorem c5_adjust_on_x_witness :
    (adjust_on_x_collision ballB padB.rect).rect.right = padB.rect.left ∧
      (adjust_on_x_collision ballB padB.rect).speed.x = qOfInt (-2) := by
  obtain ⟨⟨h1, -⟩, h2, -⟩ := c5_adjust_on_x ballB padB.rect (by decide)
  refine ⟨h1 (by decide), ?_⟩
  rw [h2]
  decide

/-! ## Claim C6: speed-up idempotence -/

/-- C6 (counterexample): a life-loss tick in which zero blocks are destroyed
(the single block stays unflagged and the block set does not change) still
changes the magnitude of the ball's velocity: `reset_ball` zeroes it, so
`|v_y|` drops from `10` to `0`. -/
theorem c6_speed_counterexample :
    (Level.update inp0 s6ex).blocks.map Block.is_destroyed = [false] ∧
      (Level.update inp0 s6ex).blocks.length = s6ex.blocks.length ∧
      qAbs (Level.update inp0 s6ex).ball.speed.y ≠ qAbs s6ex.ball.speed.y := by
  decide

/-- C6 (amended): on every tick that (a) does not release the ball, (b) does
not trigger a life loss, and (c) reaches cleanup with no block flagged
destroyed (so zero blocks are destroyed or removed), the magnitude of each
component of the ball's velocity is unchanged — boundary, paddle and block
reflections only negate components. -/
theorem c6_speed_magnitude (i : Input) (s : Level)
    (h1 : i.ctrl = false ∨ s.state.is_ball_released = true)
    (h2 : ¬ lifeLossNow (xPass (Level.process_key_presses i s)))
    (h3 : ∀ b ∈ (afterCollisions i s).blocks, b.is_destroyed = false) :
    qAbs (Level.update i s).ball.speed.x = qAbs s.ball.speed.x ∧
      qAbs (Level.update i s).ball.speed.y = qAbs s.ball.speed.y := by
  rw [qAbs_eq, qAbs_eq, qAbs_eq, qAbs_eq, update_speed_eq,
    cleanupLoop_noflag _ _ _ h3]
  have h4 := process_collisions_ball_speed (Level.process_key_presses i s) h2
  rw [process_key_presses_ball_speed i s h1] at h4
  exact h4

/-- C6 (witness: a quiet mid-air tick at `s8ex`). -/
theorem c6_speed_magnitude_witness :
    qAbs (Level.update inp0 s8ex).ball.speed.x = qAbs s8ex.ball.speed.x ∧
      qAbs (Level.update inp0 s8ex).ball.speed.y = qAbs s8ex.ball.speed.y :=
  c6_speed_magnitude inp0 s8ex (Or.inl rfl) (by decide) (by decide)

/-! ## Claim C7: termination freeze -/

/-- C7: in any run of the driver loop, once a level's `is_game_over` is true,
no later frame mutates its score, lifes, or block set (and the flag stays
true) — `Game.run` never calls `level.update()` on a game-over level; only a
DELETE event (excluded here) swaps in a fresh level. -/
theorem c7_game_over_freeze (fresh : Level) (st : LoopState) (fs : List Frame)
    (hgo : st.level.state.is_game_over = true)
    (hnd : ∀ f ∈ fs, GEvent.deleteKey ∉ f.events) :
    (runFrames fresh st fs).level.state.score = st.level.state.score ∧
      (runFrames fresh st fs).level.state.lifes = st.level.state.lifes ∧
      (runFrames fresh st fs).level.blocks = st.level.blocks ∧
      (runFrames fresh st fs).level.state.is_game_over = true := by
  have h := runFrames_frozen fresh st fs hgo hnd
  rw [h]
  exact ⟨rfl, rfl, rfl, hgo⟩

/-- C7 (witness: two delete-free frames on a game-over loop state). -/
theorem c7_game_over_freeze_witness :
    (runFrames s7ex st7ex fs7ex).level.state.score = st7ex.level.state.score ∧
      (runFrames s7ex st7ex fs7ex).level.state.lifes = st7ex.level.state.lifes ∧
      (runFrames s7ex st7ex fs7ex).level.blocks = st7ex.level.blocks ∧
      (runFrames s7ex st7ex fs7ex).level.state.is_game_over = true :=
  c7_game_over_freeze s7ex st7ex fs7ex (by decide) (by decide)

/-! ## Claim C8: factory validation -/

/-- C8: the Level Factory performs no validation at all.  With an empty block
layout (`num_of_rows = 0`, otherwise Scenario A parameters) `get_level`
silently returns a Level with an empty block set and the hard-coded 4 lifes —
no error of any kind — and the very first tick of that degenerate level sets
`is_player_won`.  This contradicts the claim that malformed construction
inputs fail fast at factory time. -/
theorem c8_factory_no_validation :
    (get_level ⟨700, 500⟩ 10 0).blocks = [] ∧
      (get_level ⟨700, 500⟩ 10 0).state.lifes = 4 ∧
      (get_level ⟨700, 500⟩ 10 0).state.is_player_won = false ∧
      (Level.update inp0 (get_level ⟨700, 500⟩ 10 0)).state.is_player_won = true := by
  decide

/-! ## Claim C9: Scenario A block count -/

/-- C9 (counterexample): with boundary 700×500, 10 columns, 5 rows, the
derived margin is 21 and the derived block width 45; the factory actually
fits 10 blocks per row (the `while x + width < 700` loop runs for
`x = 21, 87, …, 615`), for 50 blocks in total, whereas the claim's formula
`floor((700 − 2·margin)/(width + margin)) × 5 = floor(658/66) × 5 = 9 × 5`
predicts 45. -/
theorem c9_block_count_counterexample :
    (get_level ⟨700, 500⟩ 10 5).blocks.length = 50 ∧
      horizontalMargin ⟨700, 500⟩ = 21 ∧
      blockWidth ⟨700, 500⟩ 10 = 45 ∧
      Int.fdiv (700 - 2 * horizontalMargin ⟨700, 500⟩)
          (blockWidth ⟨700, 500⟩ 10 + horizontalMargin ⟨700, 500⟩) * 5 = 45 ∧
      ((get_level ⟨700, 500⟩ 10 5).blocks.length : ℤ) ≠
        Int.fdiv (700 - 2 * horizontalMargin ⟨700, 500⟩)
          (blockWidth ⟨700, 500⟩ 10 + horizontalMargin ⟨700, 500⟩) * 5 := by
  decide

/-- C9 (amended): with boundary 700×500, 10 columns, 5 rows, the factory
produces exactly `columns_fit_per_row × 5 = 50` blocks, where
`columns_fit_per_row = 10` is the number of placements `x = margin + k·(width
+ margin)` with `x + width < 700`, i.e.
`floor((700 − margin − width − 1)/(width + margin)) + 1`; every produced block
initially has its destroyed flag false. -/
theorem c9_block_count_amended :
    (get_level ⟨700, 500⟩ 10 5).blocks.length =
        (Int.fdiv (700 - horizontalMargin ⟨700, 500⟩ - blockWidth ⟨700, 500⟩ 10 - 1)
            (blockWidth ⟨700, 500⟩ 10 + horizontalMargin ⟨700, 500⟩) + 1).toNat * 5 ∧
      (get_level ⟨700, 500⟩ 10 5).blocks.length = 50 ∧
      (get_level ⟨700, 500⟩ 10 5).blocks.all (fun b => !b.is_destroyed) = true := by
  decide

/-! ## Claim C10: the destroyed flag is monotone -/

/-- C10: (1) every block present after a tick descends from a block of the
previous state with the same identity and rectangle, and a destroyed flag
that is never cleared — no operation resets the flag; (2) a block already
flagged destroyed (e.g. one that survived a tick's cleanup) is removed within
at most `|blocks|` further ticks — no block with its identity remains — and
its removal is scored: the score strictly exceeds the starting score by at
least 100. -/
theorem c10_destroyed_flag_monotone :
    (∀ (i : Input) (s : Level), ∀ b' ∈ (Level.update i s).blocks,
        ∃ b ∈ s.blocks, b'.bid = b.bid ∧ b'.rect = b.rect ∧
          (b.is_destroyed = true → b'.is_destroyed = true)) ∧
      ∀ (inps : List Input) (s : Level) (b : Block),
        (s.blocks.map Block.bid).Nodup → b ∈ s.blocks → b.is_destroyed = true →
          s.blocks.length ≤ inps.length →
          (∀ b' ∈ (iterUpdate inps s).blocks, b'.bid ≠ b.bid) ∧
            s.state.score + 100 ≤ (iterUpdate inps s).state.score := by
  constructor
  · exact update_provenance
  · intro inps s b hnd hb hd hlen
    refine ⟨iter_eventually_removed inps s b hnd hb hd hlen, ?_⟩
    cases inps with
    | nil =>
      simp only [List.length_nil, Nat.le_zero, List.length_eq_zero] at hlen
      rw [hlen] at hb
      cases hb
    | cons i rest =>
      have hlt := update_removes i s hb hd
      have hle := iter_length_le rest (Level.update i s)
      have hsc := iter_score (i :: rest) s
      have hfin : (iterUpdate (i :: rest) s).blocks.length < s.blocks.length := by
        rw [iterUpdate_cons]
        exact lt_of_le_of_lt hle hlt
      omega

/-- C10 (witness: a flagged block is removed and scored within one tick). -/
theorem c10_destroyed_flag_monotone_witness :
    s7ex.state.score + 100 ≤ (iterUpdate [inp0] s7ex).state.score :=
  (c10_destroyed_flag_monotone.2 [inp0] s7ex b10ex (by decide) (by decide) (by decide)
    (by decide)).2

end Breakout
